import Mathlib

/-!
Verification of the GA4 Explore CSV header-reconciliation pipeline of
`ga4_insights` (`analyse.py`, `analyse2.py`).

The embedding works over the file's text lines (the result of Python's
`splitlines()`): file reading and UTF-8 decoding with replacement are outside
the model, everything from `_read_text_lines`'s comment filter onward is
modelled.  Python strings are Lean `String`s; Python's `csv.reader` (default
dialect: delimiter `,`, quote char `"`, doubled quotes, non-strict) is
modelled by an explicit state machine on the line's characters.  Fallible
code returns `Except`: `SystemExit` and the uncaught `StopIteration` /
`IndexError` exceptions all terminate the run, so each is a distinct error
value.  Python's `str.strip` / `str.lower` / `str.isdigit` act on Unicode;
the model uses their ASCII behaviour, which coincides on every input the
claims touch.
-/

/-- Python `s.startswith(c)` for a single-character needle: tests the first
character of the string (`False` on the empty string). -/
def startsWithChar (c : Char) (s : String) : Bool :=
  match s.data with
  | [] => false
  | a :: _ => a == c

/-- Python `s.strip()` on the character list: whitespace removed from both
ends. -/
def pyStripChars (l : List Char) : List Char :=
  ((l.dropWhile Char.isWhitespace).reverse.dropWhile Char.isWhitespace).reverse

/-- Python `s.strip()`. -/
def pyStrip (s : String) : String :=
  ⟨pyStripChars s.data⟩

/-- Python `s.lower()` (ASCII case folding). -/
def pyLower (s : String) : String :=
  ⟨s.data.map Char.toLower⟩

/-- Python `sep.join(parts)`. -/
def pyJoin (sep : String) : List String → String
  | [] => ""
  | [a] => a
  | a :: rest => a ++ sep ++ pyJoin sep rest

/-- Python `list.index` / first-match generator: the index of the first
element satisfying `p`, if any. -/
def pyIndex? (p : String → Bool) : List String → Option Nat
  | [] => none
  | a :: l => if p a then some 0 else (pyIndex? p l).map (· + 1)

/-- States of Python's `csv.reader` field scanner (default dialect,
`strict=False`). -/
inductive CsvState
  | startField
  | inField
  | inQuoted
  | quoteInQuoted
deriving DecidableEq

/-- One step of `csv.reader` over the characters of a single line. `cur` is
the current field (reversed), `acc` the fields already emitted.  At the end
of the line the current field is emitted. -/
def csvAux (st : CsvState) (cur : List Char) (acc : List String) :
    List Char → List String
  | [] => acc ++ [⟨cur.reverse⟩]
  | c :: cs =>
    match st with
    | .startField =>
      if c == '\"' then csvAux .inQuoted cur acc cs
      else if c == ',' then csvAux .startField [] (acc ++ [⟨cur.reverse⟩]) cs
      else csvAux .inField (c :: cur) acc cs
    | .inField =>
      if c == ',' then csvAux .startField [] (acc ++ [⟨cur.reverse⟩]) cs
      else csvAux .inField (c :: cur) acc cs
    | .inQuoted =>
      if c == '\"' then csvAux .quoteInQuoted cur acc cs
      else csvAux .inQuoted (c :: cur) acc cs
    | .quoteInQuoted =>
      if c == '\"' then csvAux .inQuoted (c :: cur) acc cs
      else if c == ',' then csvAux .startField [] (acc ++ [⟨cur.reverse⟩]) cs
      else csvAux .inField (c :: cur) acc cs

/-- `next(csv.reader([line]))` for a non-empty `line`: the list of fields of
the one CSV record on the line.  (For the empty line `csv.reader` yields no
record at all — `next` raises `StopIteration`; the caller handles that case
explicitly.) -/
def parseCSVLine (s : String) : List String :=
  csvAux .startField [] [] s.data

/-- `_read_text_lines` after `splitlines()`: drop GA4 metadata comment lines
(lines starting with `#`). -/
def readTextLines (lines : List String) : List String :=
  lines.filter (fun ln => !startsWithChar '#' ln)

/-- The retained rows of `parse_device_header_csv`: comment lines removed,
then leading blank (empty or whitespace-only) lines popped. -/
def retainedRows (lines : List String) : List String :=
  (readTextLines lines).dropWhile (fun ln => pyStrip ln == "")

/-- The `device_labels` of `parse_device_header_csv`: every cell of the first
row strictly after the pivot index, stripped. -/
def pivotLabels (rows : List String) (idx : Nat) : List String :=
  ((parseCSVLine (rows.getD 0 "")).drop (idx + 1)).map pyStrip

/-- The `header_row` of `parse_device_header_csv`: the second retained line
parsed as CSV. -/
def headerRowOf (rows : List String) : List String :=
  parseCSVLine (rows.getD 1 "")

/-- Locating `"Device category"` on the first header row:
`device_row.index("Device category")`, falling back to the first
case-insensitive, whitespace-stripped match. -/
def locatePivotColumn (cells : List String) : Option Nat :=
  match pyIndex? (fun v => v == "Device category") cells with
  | some i => some i
  | none => pyIndex? (fun v => pyLower (pyStrip v) == "device category") cells

/-- The replacement header cell for a pivot label: the source hardcodes the
metric name `Active users`. -/
def auLabel (lab : String) : String :=
  "Active users (" ++ lab ++ ")"

/-- The header-merge loop
`for i, lab in enumerate(reversed(device_labels), start=1):
header_cells[-i] = f"Active users ({lab})"`.
`header_cells[-i]` is the cell at distance `i - 1` from the end, i.e. cell
`i - 1` of the reversed list, so the loop writes the reversed labels at
positions `0, 1, …` of the reversed cell list. -/
def mergeHeader (cells labels : List String) : List String :=
  ((labels.reverse.enum).foldl
    (fun cs p => cs.set p.1 (auLabel p.2)) cells.reverse).reverse

/-- The surviving data lines: all retained lines from index 2 on whose first
character is not a comma (`if not ln.startswith(",")`). -/
def dataLines (rows : List String) : List String :=
  (rows.drop 2).filter (fun ln => !startsWithChar ',' ln)

/-- The reconciled export: the merged header cells and the surviving data
lines, from which the function builds `csv_text` and hands it to
`pd.read_csv`. -/
structure Reconciled where
  header : List String
  body : List String
deriving DecidableEq

/-- The `csv_text` handed to `pd.read_csv`:
`",".join(header_cells) + "\n" + "\n".join(data_lines)`. -/
def Reconciled.csvText (r : Reconciled) : String :=
  pyJoin "," r.header ++ "\n" ++ pyJoin "\n" r.body

/-- The ways `parse_device_header_csv` terminates the run instead of
returning a DataFrame:
* `tooFewLines` — the explicit `raise SystemExit(...)`;
* `emptyHeaderLine` — `next(csv.reader([rows[1]]))` raises `StopIteration`
  when the second retained line is empty;
* `noPivotColumn` — the fallback generator in the pivot lookup is exhausted
  and `next` raises `StopIteration`;
* `headerIndexError` — `header_cells[-i] = ...` raises `IndexError` when
  there are more pivot labels than header cells. -/
inductive ParseErr
  | tooFewLines
  | emptyHeaderLine
  | noPivotColumn
  | headerIndexError
deriving DecidableEq

/-- The message the failure carries to the process boundary (the
`SystemExit` argument; the uncaught exceptions print their type). -/
def ParseErr.message : ParseErr → String
  | .tooFewLines => "CSV does not look like a GA4 Explore export with device header."
  | .emptyHeaderLine => "StopIteration"
  | .noPivotColumn => "StopIteration"
  | .headerIndexError => "IndexError: list assignment index out of range"

/-- The spec's `MalformedExportError`: the input's shape is not that of a GA4
Explore export with device header.  Section 7 names the `SystemExit` on too
few lines and the failed pivot lookup; section 4.1 directs that an unhandled
lookup failure (`StopIteration`) is treated as `MalformedExportError`, which
covers the empty second line as well. -/
def MalformedExportError (e : ParseErr) : Prop :=
  e = .tooFewLines ∨ e = .noPivotColumn ∨ e = .emptyHeaderLine

/-- `parse_device_header_csv` of `analyse.py` (lines 38–78), up to the final
`pd.read_csv` call: from the file's text lines to the reconciled header and
body (from which `csv_text` is the DataFrame's exact source). -/
def parse_device_header_csv (lines : List String) : Except ParseErr Reconciled :=
  let rows := retainedRows lines
  if rows.length < 3 then .error .tooFewLines
  else if rows.getD 1 "" == "" then .error .emptyHeaderLine
  else
    match locatePivotColumn (parseCSVLine (rows.getD 0 "")) with
    | none => .error .noPivotColumn
    | some idx =>
      let labels := pivotLabels rows idx
      let header_row := headerRowOf rows
      if header_row.length < labels.length then .error .headerIndexError
      else .ok ⟨mergeHeader header_row labels, dataLines rows⟩

/-- `parse_device_header_csv` of `analyse2.py` (lines 58–82): the same
routine transcribed from its second copy. -/
def parse_device_header_csv2 (lines : List String) : Except ParseErr Reconciled :=
  let rows := retainedRows lines
  if rows.length < 3 then .error .tooFewLines
  else if rows.getD 1 "" == "" then .error .emptyHeaderLine
  else
    match locatePivotColumn (parseCSVLine (rows.getD 0 "")) with
    | none => .error .noPivotColumn
    | some idx =>
      let labels := pivotLabels rows idx
      let header_row := headerRowOf rows
      if header_row.length < labels.length then .error .headerIndexError
      else .ok ⟨mergeHeader header_row labels, dataLines rows⟩

/-- A calendar date, the value of a non-null pandas `Timestamp` at midnight
(the only timestamps `_parse_dates_robust` produces from GA4 exports). -/
structure YMD where
  y : Nat
  m : Nat
  d : Nat
deriving DecidableEq

/-- Gregorian leap year. -/
def isLeap (y : Nat) : Bool :=
  (y % 4 == 0 && y % 100 != 0) || y % 400 == 0

/-- Days of month `m` in year `y`. -/
def daysInMonth (y m : Nat) : Nat :=
  if m == 2 then (if isLeap y then 29 else 28)
  else if m == 4 || m == 6 || m == 9 || m == 11 then 30
  else 31

/-- Lexicographic order on dates. -/
def ymdLe (a b : YMD) : Bool :=
  a.y < b.y || (a.y == b.y && (a.m < b.m || (a.m == b.m && a.d ≤ b.d)))

/-- A date representable as a pandas `Timestamp` (whose epoch-ns range runs
from late 1677-09-21 to 2262-04-11: midnight exists for 1677-09-22 through
2262-04-11).  Outside it `pd.to_datetime` raises `OutOfBoundsDatetime`,
which both copies of the parser turn into `NaT`. -/
def inTimestampRange (x : YMD) : Bool :=
  ymdLe ⟨1677, 9, 22⟩ x && ymdLe x ⟨2262, 4, 11⟩

/-- The numeric value of a digit string. -/
def digitsToNat (l : List Char) : Nat :=
  l.foldl (fun n c => 10 * n + (c.toNat - '0'.toNat)) 0

/-- The `v.isdigit() and len(v) == 8` test guarding the `YYYYMMDD` branch. -/
def isYmd8 (v : String) : Bool :=
  v.data.all Char.isDigit && v.length == 8

/-- `pd.to_datetime(v, format="%Y%m%d")` on an 8-digit string, with every
exception (bad month/day, out-of-bounds timestamp) mapped to `NaT` — in
`analyse.py` by the surrounding `try/except`, in `analyse2.py` by
`errors="coerce"`. -/
def toDatetimeYmd8 (v : String) : Option YMD :=
  let cs := v.data
  let x : YMD := ⟨digitsToNat (cs.take 4), digitsToNat ((cs.drop 4).take 2),
                  digitsToNat (cs.drop 6)⟩
  if 1 ≤ x.m && x.m ≤ 12 && 1 ≤ x.d && x.d ≤ daysInMonth x.y x.m &&
      inTimestampRange x then some x
  else none

/-- The per-value body of `_parse_dates_robust` (identical in behaviour in
both files).  `coerce` stands for the library call
`pd.to_datetime(v, errors="coerce")` of the final branch — a total function
into an optional date that, by its contract, never raises and yields `NaT`
(here `none`) on anything it cannot parse. -/
def parseDateRobust (coerce : String → Option YMD) (v0 : String) : Option YMD :=
  let v := pyStrip v0
  if v == "" then none
  else if isYmd8 v then toDatetimeYmd8 v
  else coerce v

/-- The four active-user metric columns of the cleaned table.  A `none` is a
pandas `NaN`. -/
structure Metrics where
  mobile : Option Int
  desktop : Option Int
  tablet : Option Int
  total : Option Int
deriving DecidableEq

/-- Pandas `max` aggregation of two optional values: `NaN` is skipped, so it
is the identity; two present values take the larger. -/
def nmax : Option Int → Option Int → Option Int
  | none, b => b
  | some a, none => some a
  | some a, some b => some (max a b)

/-- Componentwise `max` aggregation of the metric columns. -/
def Metrics.mmax (a b : Metrics) : Metrics :=
  ⟨nmax a.mobile b.mobile, nmax a.desktop b.desktop,
   nmax a.tablet b.tablet, nmax a.total b.total⟩

/-- The all-`NaN` metrics, the aggregation's identity (pandas `max` of an
all-`NaN` group is `NaN`). -/
def Metrics.bot : Metrics :=
  ⟨none, none, none, none⟩

/-- One row of the intermediate DataFrame `df` built inside `load_and_clean`
before deduplication. -/
structure CleanRow where
  date : Option YMD
  landing_page : String
  country : String
  event_name : String
  channel_group : String
  metrics : Metrics
deriving DecidableEq

/-- The groupby key `["date", "landing_page", "channel_group", "country"]`
(`dropna=False`: a missing date is an ordinary key value). -/
def CleanRow.key (r : CleanRow) : Option YMD × String × String × String :=
  (r.date, r.landing_page, r.channel_group, r.country)

/-- One row of the deduplicated table `load_and_clean` returns: the key
fields restored by `reset_index`, plus the aggregated metrics.
`event_name` is not part of the key and is dropped by the aggregation. -/
structure DedupRow where
  date : Option YMD
  landing_page : String
  channel_group : String
  country : String
  metrics : Metrics
deriving DecidableEq

/-- The key of a deduplicated row. -/
def DedupRow.key (r : DedupRow) : Option YMD × String × String × String :=
  (r.date, r.landing_page, r.channel_group, r.country)

/-- The group row a clean row opens. -/
def DedupRow.ofClean (r : CleanRow) : DedupRow :=
  ⟨r.date, r.landing_page, r.channel_group, r.country, r.metrics⟩

/-- Fold one input row into the group table: the first group with the same
key aggregates it, a fresh key opens a new group.  (Pandas sorts the group
keys in its output; the claims are about the rows, not their order, so the
model keeps first-occurrence order.) -/
def upsertRow (r : CleanRow) : List DedupRow → List DedupRow
  | [] => [DedupRow.ofClean r]
  | o :: os =>
    if o.key = r.key then { o with metrics := o.metrics.mmax r.metrics } :: os
    else o :: upsertRow r os

/-- `df.groupby(key, dropna=False).agg(max).reset_index()`: partition the
rows by key and aggregate each metric column with the `NaN`-skipping
maximum. -/
def dedupByKeyMax (rows : List CleanRow) : List DedupRow :=
  rows.foldl (fun acc r => upsertRow r acc) []

/-- The `NaN`-skipping maximum of each metric over the rows of key `k`. -/
def groupMax (rows : List CleanRow) (k : Option YMD × String × String × String) :
    Metrics :=
  (rows.filter (fun r => r.key = k)).foldl (fun m r => m.mmax r.metrics) Metrics.bot

/-- A signed decimal integer, or `none`: `pd.to_numeric(cell,
errors="coerce")` on the (integral) GA4 cell strings.  Surrounding
whitespace is accepted, anything else yields `NaN`. -/
def toNumeric (s : String) : Option Int :=
  let t := (pyStrip s).data
  match t with
  | '-' :: ds => if ds ≠ [] && ds.all Char.isDigit then some (-(digitsToNat ds : Int)) else none
  | ds => if ds ≠ [] && ds.all Char.isDigit then some (digitsToNat ds : Int) else none

/-- The index of the named column in the reconciled header, as `pd.read_csv`
names its columns (first occurrence; pandas renames later duplicates). -/
def colIdx (hdr : List String) (name : String) : Option Nat :=
  pyIndex? (fun v => v == name) hdr

/-- The cells of one body line, and the cell under a column index (a row
shorter than the header reads as missing — empty — cells). -/
def cellAt (row : List String) (i : Nat) : String :=
  row.getD i ""

/-- `raw.get(name, "")` for one row: the named column's cell, or the default
`""` when the export has no such column. -/
def getColD (hdr row : List String) (name : String) : String :=
  match colIdx hdr name with
  | some i => cellAt row i
  | none => ""

/-- `pd.to_numeric(raw.get(name), errors="coerce")` for one row
(`analyse.py`): a missing column is `None`, hence an all-`NaN` metric. -/
def metricA (hdr row : List String) (name : String) : Option Int :=
  match colIdx hdr name with
  | some i => toNumeric (cellAt row i)
  | none => none

/-- `_safe_series(raw, name)` for one row (`analyse2.py`): present columns
are coerced with `NaN` filled by `0`, a missing column is the constant 0
series. -/
def metricB (hdr row : List String) (name : String) : Option Int :=
  match colIdx hdr name with
  | some i => some ((toNumeric (cellAt row i)).getD 0)
  | none => some 0

/-- One row of the intermediate DataFrame of `analyse.py`'s
`load_and_clean`. -/
def buildCleanRowA (coerce : String → Option YMD) (hdr row : List String) : CleanRow :=
  { date := parseDateRobust coerce (getColD hdr row "Date")
    landing_page := pyStrip (getColD hdr row "Landing page")
    country := getColD hdr row "Country"
    event_name := getColD hdr row "Event name"
    channel_group := getColD hdr row "Session default channel group"
    metrics := ⟨metricA hdr row "Active users (mobile)",
                metricA hdr row "Active users (desktop)",
                metricA hdr row "Active users (tablet)",
                metricA hdr row "Active users (Totals)"⟩ }

/-- One row of the intermediate DataFrame of `analyse2.py`'s
`load_and_clean`. -/
def buildCleanRowB (coerce : String → Option YMD) (hdr row : List String) : CleanRow :=
  { date := parseDateRobust coerce (getColD hdr row "Date")
    landing_page := pyStrip (getColD hdr row "Landing page")
    country := getColD hdr row "Country"
    event_name := getColD hdr row "Event name"
    channel_group := getColD hdr row "Session default channel group"
    metrics := ⟨metricB hdr row "Active users (mobile)",
                metricB hdr row "Active users (desktop)",
                metricB hdr row "Active users (tablet)",
                metricB hdr row "Active users (Totals)"⟩ }

/-- The ways `load_and_clean` terminates the run:
* `missingInput` — the `SystemExit` when the input file does not exist
  (the spec's `MissingInputError`), carrying its message;
* `malformed` — a failure inside `parse_device_header_csv`;
* `keyError` — `raw["Date"]` / `raw["Landing page"]` raise `KeyError` when
  the reconciled export lacks that column. -/
inductive LoadErr
  | missingInput (msg : String)
  | malformed (e : ParseErr)
  | keyError (col : String)
deriving DecidableEq

/-- The `SystemExit` message for a missing input file: it names the expected
path and the remediation. -/
def missingMsg (path : String) : String :=
  "Could not find CSV at: " ++ path ++ "\n" ++
    "Export from GA4 (Explore) and save it there as ga4_export.csv."

/-- The process exit status an uncaught `LoadErr` produces: `SystemExit`
with a string argument prints the message and exits with status 1, and an
uncaught exception traceback also exits with status 1. -/
def exitCode : LoadErr → Nat :=
  fun _ => 1

/-- The intermediate DataFrame rows of `analyse.py`'s `load_and_clean`:
`raw["Date"]` and `raw["Landing page"]` are demanded (a `KeyError`
otherwise, `"date"` evaluated first in the dict literal), the remaining
columns default. -/
def buildCleanRowsA (coerce : String → Option YMD) (r : Reconciled) :
    Except LoadErr (List CleanRow) :=
  if colIdx r.header "Date" = none then .error (.keyError "Date")
  else if colIdx r.header "Landing page" = none then .error (.keyError "Landing page")
  else .ok ((r.body.map parseCSVLine).map (buildCleanRowA coerce r.header))

/-- The intermediate DataFrame rows of `analyse2.py`'s `load_and_clean`. -/
def buildCleanRowsB (coerce : String → Option YMD) (r : Reconciled) :
    Except LoadErr (List CleanRow) :=
  if colIdx r.header "Date" = none then .error (.keyError "Date")
  else if colIdx r.header "Landing page" = none then .error (.keyError "Landing page")
  else .ok ((r.body.map parseCSVLine).map (buildCleanRowB coerce r.header))

/-- `load_and_clean` of `analyse.py` (lines 81–124): the existence check,
the header reconciliation, the typed column extraction and the groupby-max
deduplication.  `pathExists` stands for `path.exists()` and `lines` for the
input file's text lines. -/
def load_and_clean (coerce : String → Option YMD) (pathExists : Bool)
    (path : String) (lines : List String) : Except LoadErr (List DedupRow) :=
  if !pathExists then .error (.missingInput (missingMsg path))
  else
    match parse_device_header_csv lines with
    | .error e => .error (.malformed e)
    | .ok raw =>
      match buildCleanRowsA coerce raw with
      | .error e => .error e
      | .ok rows => .ok (dedupByKeyMax rows)

/-- `load_and_clean` of `analyse2.py` (lines 86–116). -/
def load_and_clean2 (coerce : String → Option YMD) (pathExists : Bool)
    (path : String) (lines : List String) : Except LoadErr (List DedupRow) :=
  if !pathExists then .error (.missingInput (missingMsg path))
  else
    match parse_device_header_csv2 lines with
    | .error e => .error (.malformed e)
    | .ok raw =>
      match buildCleanRowsB coerce raw with
      | .error e => .error e
      | .ok rows => .ok (dedupByKeyMax rows)

/-- An output file the `__main__` block of `analyse.py` writes. -/
inductive RunWrite
  | cleanCsv (table : List DedupRow)
  | report (md : String)
deriving DecidableEq

/-- The writes of `analyse.py`'s `__main__` block: `load_and_clean`, then
the cleaned CSV, then the report.  An exception inside `load_and_clean`
propagates before either write, so a failing run writes nothing.  The report
generator `summarise` is a parameter: its content plays no part in the error
claims. -/
def runOutputs (summarise : List DedupRow → String)
    (coerce : String → Option YMD) (pathExists : Bool) (path : String)
    (lines : List String) : List RunWrite :=
  match load_and_clean coerce pathExists path lines with
  | .error _ => []
  | .ok t => [.cleanCsv t, .report (summarise t)]

/-- The first group row of key `k`, if any: both the group a new input row
joins in `upsertRow` and the row of key `k` in the output (keys are unique
there). -/
def findRow (k : Option YMD × String × String × String) :
    List DedupRow → Option DedupRow
  | [] => none
  | o :: os => if o.key = k then some o else findRow k os

/-- Aggregating a list of input rows into an existing group row. -/
def mergeInto (o : DedupRow) (l : List CleanRow) : DedupRow :=
  { o with metrics := l.foldl (fun m r => m.mmax r.metrics) o.metrics }

/-- The input rows of key `k`. -/
def groupOf (rows : List CleanRow) (k : Option YMD × String × String × String) :
    List CleanRow :=
  rows.filter (fun r => r.key = k)

/-! ### Lemmas about the header merge -/

theorem foldl_set_enumFrom (f : String → String) (ls : List String) :
    ∀ (s : Nat) (cs : List String), s + ls.length ≤ cs.length →
    (ls.enumFrom s).foldl (fun acc p => acc.set p.1 (f p.2)) cs =
      cs.take s ++ ls.map f ++ cs.drop (s + ls.length) := by
  induction ls with
  | nil =>
    intro s cs _
    simp
  | cons a ls ih =>
    intro s cs h
    have hs : s < cs.length := by
      simp only [List.length_cons] at h
      omega
    rw [List.enumFrom_cons]
    simp only [List.foldl_cons]
    have hlen : (s + 1) + ls.length ≤ (cs.set s (f a)).length := by
      simp only [List.length_set]
      simp only [List.length_cons] at h
      omega
    rw [ih (s + 1) (cs.set s (f a)) hlen]
    rw [List.set_eq_take_cons_drop (f a) hs]
    have hta : (cs.take s).length = s := by
      rw [List.length_take]
      omega
    rw [List.take_append_eq_append_take, List.drop_append_eq_append_drop]
    rw [hta]
    have h1 : (cs.take s).take (s + 1) = cs.take s := by
      apply List.take_of_length_le
      omega
    have h2 : s + 1 - s = 1 := by omega
    have h3 : (cs.take s).drop (s + 1 + ls.length) = [] := by
      apply List.drop_eq_nil_of_le
      omega
    rw [h1, h2, h3]
    have h4 : (f a :: cs.drop (s + 1)).take 1 = [f a] := by
      simp
    have h5 : s + 1 + ls.length - s = 1 + ls.length := by omega
    have h6 : (f a :: cs.drop (s + 1)).drop (1 + ls.length) =
        cs.drop (s + 1 + ls.length) := by
      have hc : 1 + ls.length = ls.length + 1 := by omega
      rw [hc]
      simp only [List.drop_succ_cons]
      rw [List.drop_drop]
    rw [h4, h5, h6]
    simp only [List.map_cons, List.nil_append, List.length_cons]
    have h7 : s + (ls.length + 1) = s + 1 + ls.length := by omega
    rw [h7]
    simp [List.append_assoc]

/-- Net effect of the merge loop: with no more labels than header cells, the
last `N` cells are replaced by the labels (in order) wrapped as
`Active users (…)`, the cells before them are untouched. -/
theorem mergeHeader_eq (cells labels : List String)
    (h : labels.length ≤ cells.length) :
    mergeHeader cells labels =
      cells.take (cells.length - labels.length) ++ labels.map auLabel := by
  unfold mergeHeader
  have he : labels.reverse.enum = labels.reverse.enumFrom 0 := rfl
  rw [he, foldl_set_enumFrom auLabel labels.reverse 0 cells.reverse
    (by simp [h])]
  simp only [List.take_zero, List.nil_append, Nat.zero_add]
  rw [List.reverse_append]
  have h1 : (labels.reverse.map auLabel).reverse = labels.map auLabel := by
    rw [List.map_reverse, List.reverse_reverse]
  have h2 : ((cells.reverse.drop labels.reverse.length)).reverse =
      cells.take (cells.length - labels.length) := by
    have h3 : (cells.take (cells.length - labels.length)).reverse =
        cells.reverse.drop labels.length := by
      rw [List.reverse_take]
      congr 1
      omega
    rw [List.length_reverse, ← h3, List.reverse_reverse]
  rw [h1, h2]

theorem mergeHeader_length (cells labels : List String)
    (h : labels.length ≤ cells.length) :
    (mergeHeader cells labels).length = cells.length := by
  rw [mergeHeader_eq cells labels h]
  simp only [List.length_append, List.length_take, List.length_map]
  omega

theorem mergeHeader_getD_last (cells labels : List String)
    (h : labels.length ≤ cells.length) (k : Nat) (hk : k < labels.length) :
    (mergeHeader cells labels).getD (cells.length - labels.length + k) "" =
      auLabel (labels.getD k "") := by
  rw [mergeHeader_eq cells labels h]
  have hta : (cells.take (cells.length - labels.length)).length =
      cells.length - labels.length := by
    rw [List.length_take]
    omega
  rw [List.getD_append_right _ _ _ _ (by omega)]
  have hsub : cells.length - labels.length + k -
      (cells.take (cells.length - labels.length)).length = k := by
    rw [hta]
    omega
  rw [hsub]
  rw [List.getD_eq_getD_get?, List.getD_eq_getD_get?]
  simp only [List.get?_eq_getElem?, List.getElem?_map]
  cases hget : labels[k]? with
  | none =>
    rw [List.getElem?_eq_none_iff] at hget
    omega
  | some v => simp [hget]

theorem mergeHeader_getD_front (cells labels : List String)
    (h : labels.length ≤ cells.length) (j : Nat)
    (hj : j < cells.length - labels.length) :
    (mergeHeader cells labels).getD j "" = cells.getD j "" := by
  rw [mergeHeader_eq cells labels h]
  have hta : (cells.take (cells.length - labels.length)).length =
      cells.length - labels.length := by
    rw [List.length_take]
    omega
  rw [List.getD_append _ _ _ _ (by omega)]
  rw [List.getD_eq_getD_get?, List.getD_eq_getD_get?]
  simp only [List.get?_eq_getElem?]
  rw [List.getElem?_take_of_lt hj]

/-! ### Lemmas about a successful parse -/

/-- What a successful `parse_device_header_csv` run tells us about the
input and the result. -/
theorem parse_ok_elim (lines : List String) (r : Reconciled)
    (h : parse_device_header_csv lines = .ok r) :
    ∃ idx,
      ¬ (retainedRows lines).length < 3 ∧
      ¬ (retainedRows lines).getD 1 "" = "" ∧
      locatePivotColumn (parseCSVLine ((retainedRows lines).getD 0 "")) = some idx ∧
      (pivotLabels (retainedRows lines) idx).length ≤ (headerRowOf (retainedRows lines)).length ∧
      r = ⟨mergeHeader (headerRowOf (retainedRows lines)) (pivotLabels (retainedRows lines) idx),
           dataLines (retainedRows lines)⟩ := by
  unfold parse_device_header_csv at h
  simp only [] at h
  split at h
  · exact absurd h (by simp)
  · rename_i hlen
    split at h
    · exact absurd h (by simp)
    · rename_i hempty
      split at h
      · exact absurd h (by simp)
      · rename_i idx hloc
        split at h
        · exact absurd h (by simp)
        · rename_i hle
          refine ⟨idx, hlen, by simpa using hempty, hloc, by omega, ?_⟩
          exact (Except.ok.injEq _ _ ▸ h).symm

/-- Converse: inputs of the right shape parse successfully, to exactly the
merged header and filtered body. -/
theorem parse_ok_intro (lines : List String) (idx : Nat)
    (h3 : ¬ (retainedRows lines).length < 3)
    (h1 : ¬ (retainedRows lines).getD 1 "" = "")
    (hloc : locatePivotColumn (parseCSVLine ((retainedRows lines).getD 0 "")) = some idx)
    (hle : (pivotLabels (retainedRows lines) idx).length ≤
      (headerRowOf (retainedRows lines)).length) :
    parse_device_header_csv lines =
      .ok ⟨mergeHeader (headerRowOf (retainedRows lines)) (pivotLabels (retainedRows lines) idx),
           dataLines (retainedRows lines)⟩ := by
  unfold parse_device_header_csv
  simp only []
  rw [if_neg h3, if_neg (by simpa using h1)]
  simp only [hloc]
  rw [if_neg (by omega)]

/-! ### Lemmas about the CSV field scanner -/

theorem string_eta (c : String) : String.mk c.data = c := rfl

theorem csvAux_length (cs : List Char) :
    ∀ (st : CsvState) (cur : List Char) (acc : List String),
    acc.length < (csvAux st cur acc cs).length := by
  induction cs with
  | nil =>
    intro st cur acc
    simp [csvAux]
  | cons c cs ih =>
    intro st cur acc
    have hstep : ∀ x : String, acc.length < (acc ++ [x]).length := by
      intro x
      simp
    cases st <;> simp only [csvAux] <;> split_ifs <;>
      first
        | exact ih _ _ _
        | exact Nat.lt_trans (hstep _) (ih _ _ _)

theorem parseCSVLine_length_pos (s : String) : 0 < (parseCSVLine s).length :=
  csvAux_length s.data .startField [] []

/-- Scanning a run of comma-free, quote-free characters inside a field just
accumulates them. -/
theorem csvAux_inField_clean (w : List Char) :
    (∀ ch ∈ w, ch ≠ ',' ∧ ch ≠ '\"') →
    ∀ (cur : List Char) (acc : List String) (rest : List Char),
    csvAux .inField cur acc (w ++ rest) =
      csvAux .inField (w.reverse ++ cur) acc rest := by
  induction w with
  | nil =>
    intro _ cur acc rest
    simp
  | cons a w ih =>
    intro hw cur acc rest
    have hcomma : (a == ',') = false := by
      simpa using (hw a (List.mem_cons_self a w)).1
    simp only [List.cons_append, csvAux, hcomma, Bool.false_eq_true, if_false,
      List.append_eq]
    rw [ih (fun ch hch => hw ch (List.mem_cons_of_mem a hch)) (a :: cur) acc rest]
    simp

/-- Joining cells that hold no comma and no quote with `,` and re-scanning
the line recovers exactly the cells. -/
theorem csv_split_join (cells : List String) :
    cells ≠ [] →
    (∀ c ∈ cells, ∀ ch ∈ c.data, ch ≠ ',' ∧ ch ≠ '\"') →
    ∀ acc, csvAux .startField [] acc (pyJoin "," cells).data = acc ++ cells := by
  induction cells with
  | nil =>
    intro h
    exact absurd rfl h
  | cons c cells ih =>
    intro _ hclean acc
    cases cells with
    | nil =>
      show csvAux .startField [] acc c.data = acc ++ [c]
      cases hd : c.data with
      | nil =>
        have hc : c = "" := by rw [← string_eta c, hd]
        rw [hc]
        rfl
      | cons c0 w =>
        have hc0 := hclean c (List.mem_cons_self c []) c0 (by simp [hd])
        have hq : (c0 == '\"') = false := by simpa using hc0.2
        have hcm : (c0 == ',') = false := by simpa using hc0.1
        have hw : ∀ ch ∈ w, ch ≠ ',' ∧ ch ≠ '\"' := fun ch hch =>
          hclean c (List.mem_cons_self c []) ch (by simp [hd, hch])
        simp only [csvAux, hq, hcm, Bool.false_eq_true, if_false, List.append_eq]
        have hstep := csvAux_inField_clean w hw [c0] acc []
        rw [List.append_nil] at hstep
        rw [hstep]
        show acc ++ [String.mk (w.reverse ++ [c0]).reverse] = acc ++ [c]
        have hlist : (w.reverse ++ [c0]).reverse = c0 :: w := by simp
        rw [hlist, ← hd, string_eta]
    | cons c2 cs =>
      have hjoin : (pyJoin "," (c :: c2 :: cs)).data =
          c.data ++ ',' :: (pyJoin "," (c2 :: cs)).data := by
        show (c ++ "," ++ pyJoin "," (c2 :: cs)).data = _
        simp [String.data_append]
      rw [hjoin]
      have htail : ∀ x ∈ c2 :: cs, ∀ ch ∈ x.data, ch ≠ ',' ∧ ch ≠ '\"' :=
        fun x hx => hclean x (List.mem_cons_of_mem c hx)
      cases hd : c.data with
      | nil =>
        have hc : c = "" := by rw [← string_eta c, hd]
        show csvAux .startField [] (acc ++ [("" : String)])
          (pyJoin "," (c2 :: cs)).data = acc ++ c :: c2 :: cs
        rw [ih (by simp) htail (acc ++ [("" : String)])]
        rw [hc]
        simp
      | cons c0 w =>
        have hc0 := hclean c (List.mem_cons_self c _) c0 (by simp [hd])
        have hq : (c0 == '\"') = false := by simpa using hc0.2
        have hcm : (c0 == ',') = false := by simpa using hc0.1
        have hw : ∀ ch ∈ w, ch ≠ ',' ∧ ch ≠ '\"' := fun ch hch =>
          hclean c (List.mem_cons_self c _) ch (by simp [hd, hch])
        simp only [List.cons_append, csvAux, hq, hcm, Bool.false_eq_true, if_false,
          List.append_eq]
        rw [csvAux_inField_clean w hw [c0] acc (',' :: (pyJoin "," (c2 :: cs)).data)]
        show csvAux .startField []
          (acc ++ [String.mk (w.reverse ++ [c0]).reverse])
          (pyJoin "," (c2 :: cs)).data = acc ++ c :: c2 :: cs
        have hlist : (w.reverse ++ [c0]).reverse = c0 :: w := by simp
        rw [hlist, ← hd, string_eta]
        rw [ih (by simp) htail (acc ++ [c])]
        simp

/-! ### The claims -/

/-- C1: on the concrete input lines `#comment`,
`,,,,Device category,mobile,desktop,Totals`,
`Date,Landing page,Active users,Active users,Active users`,
`20250701,/home,5,3,8`, `,,,16,16`, the header reconciliation produces the
merged header line
`Date,Landing page,Active users (mobile),Active users (desktop),Active users (Totals)`
and a data body holding exactly the single `/home` line: the totals line
`,,,16,16` is dropped and the comment line does not appear. -/
theorem claim_C1 :
    parse_device_header_csv
      ["#comment", ",,,,Device category,mobile,desktop,Totals",
       "Date,Landing page,Active users,Active users,Active users",
       "20250701,/home,5,3,8", ",,,16,16"] =
      .ok ⟨["Date", "Landing page", "Active users (mobile)",
            "Active users (desktop)", "Active users (Totals)"],
           ["20250701,/home,5,3,8"]⟩ ∧
    Reconciled.csvText
      ⟨["Date", "Landing page", "Active users (mobile)",
        "Active users (desktop)", "Active users (Totals)"],
       ["20250701,/home,5,3,8"]⟩ =
      "Date,Landing page,Active users (mobile),Active users (desktop)," ++
        "Active users (Totals)" ++ "\n" ++ "20250701,/home,5,3,8" := by
  exact ⟨rfl, rfl⟩

/-- C2, counterexample: the merge does not embed the column's original
metric name from line 2.  On an export whose metric column is named
`Sessions`, the merged cell is the hardcoded `Active users (mobile)`, not
`Sessions (mobile)`. -/
theorem claim_C2_counterexample :
    parse_device_header_csv
      [",,Device category,mobile", "Date,Page,Sessions", "1,2,3"] =
      .ok ⟨["Date", "Page", "Active users (mobile)"], ["1,2,3"]⟩ ∧
    (("Active users (mobile)" == "Sessions (mobile)") = false) := by
  exact ⟨rfl, rfl⟩

/-- C2, amended: with the pivot column located at `idx` and no more labels
than header columns, the merge rewrites the last `N` header cells to
`Active users (<pivot label>)` — the metric name is the hardcoded string
`Active users`, not the column's original metric name — applied from the
rightmost column backward, so label `k` lands on column `L - N + k`, and
every column before the last `N` keeps its original name. -/
theorem claim_C2 (lines : List String) (idx : Nat)
    (h3 : ¬ (retainedRows lines).length < 3)
    (h1 : ¬ (retainedRows lines).getD 1 "" = "")
    (hloc : locatePivotColumn (parseCSVLine ((retainedRows lines).getD 0 "")) = some idx)
    (hle : (pivotLabels (retainedRows lines) idx).length ≤
      (headerRowOf (retainedRows lines)).length) :
    ∃ r, parse_device_header_csv lines = .ok r ∧
      r.header.length = (headerRowOf (retainedRows lines)).length ∧
      (∀ k, k < (pivotLabels (retainedRows lines) idx).length →
        r.header.getD ((headerRowOf (retainedRows lines)).length -
            (pivotLabels (retainedRows lines) idx).length + k) "" =
          auLabel ((pivotLabels (retainedRows lines) idx).getD k "")) ∧
      (∀ j, j < (headerRowOf (retainedRows lines)).length -
          (pivotLabels (retainedRows lines) idx).length →
        r.header.getD j "" = (headerRowOf (retainedRows lines)).getD j "") := by
  refine ⟨_, parse_ok_intro lines idx h3 h1 hloc hle, ?_, ?_, ?_⟩
  · exact mergeHeader_length _ _ hle
  · intro k hk
    exact mergeHeader_getD_last _ _ hle k hk
  · intro j hj
    exact mergeHeader_getD_front _ _ hle j hj

/-- C2, witness: the amended claim at the concrete GA4 scenario (pivot at
column 4, three labels over five header columns). -/
theorem claim_C2_witness :
    ∃ r, parse_device_header_csv
      ["#comment", ",,,,Device category,mobile,desktop,Totals",
       "Date,Landing page,Active users,Active users,Active users",
       "20250701,/home,5,3,8", ",,,16,16"] = .ok r ∧
      r.header.length = (headerRowOf (retainedRows
        ["#comment", ",,,,Device category,mobile,desktop,Totals",
         "Date,Landing page,Active users,Active users,Active users",
         "20250701,/home,5,3,8", ",,,16,16"])).length ∧
      (∀ k, k < (pivotLabels (retainedRows
          ["#comment", ",,,,Device category,mobile,desktop,Totals",
           "Date,Landing page,Active users,Active users,Active users",
           "20250701,/home,5,3,8", ",,,16,16"]) 4).length →
        r.header.getD ((headerRowOf (retainedRows
            ["#comment", ",,,,Device category,mobile,desktop,Totals",
             "Date,Landing page,Active users,Active users,Active users",
             "20250701,/home,5,3,8", ",,,16,16"])).length -
            (pivotLabels (retainedRows
              ["#comment", ",,,,Device category,mobile,desktop,Totals",
               "Date,Landing page,Active users,Active users,Active users",
               "20250701,/home,5,3,8", ",,,16,16"]) 4).length + k) "" =
          auLabel ((pivotLabels (retainedRows
            ["#comment", ",,,,Device category,mobile,desktop,Totals",
             "Date,Landing page,Active users,Active users,Active users",
             "20250701,/home,5,3,8", ",,,16,16"]) 4).getD k "")) ∧
      (∀ j, j < (headerRowOf (retainedRows
          ["#comment", ",,,,Device category,mobile,desktop,Totals",
           "Date,Landing page,Active users,Active users,Active users",
           "20250701,/home,5,3,8", ",,,16,16"])).length -
          (pivotLabels (retainedRows
            ["#comment", ",,,,Device category,mobile,desktop,Totals",
             "Date,Landing page,Active users,Active users,Active users",
             "20250701,/home,5,3,8", ",,,16,16"]) 4).length →
        r.header.getD j "" = (headerRowOf (retainedRows
          ["#comment", ",,,,Device category,mobile,desktop,Totals",
           "Date,Landing page,Active users,Active users,Active users",
           "20250701,/home,5,3,8", ",,,16,16"])).getD j "") :=
  claim_C2 _ 4 (by decide) (by decide) (by decide) (by decide)

/-- C3: whenever fewer than 3 lines remain after removing `#`-comment lines
and leading blank lines — the empty and whitespace-only inputs included —
the reconciliation fails with the `MalformedExportError` (`SystemExit`)
whose message names the expected shape, and produces no output. -/
theorem claim_C3 (lines : List String)
    (h : (retainedRows lines).length < 3) :
    parse_device_header_csv lines = .error .tooFewLines ∧
    MalformedExportError .tooFewLines ∧
    ParseErr.message .tooFewLines =
      "CSV does not look like a GA4 Explore export with device header." := by
  refine ⟨?_, Or.inl rfl, rfl⟩
  unfold parse_device_header_csv
  simp only []
  rw [if_pos h]

/-- C3, witness: the empty input. -/
theorem claim_C3_witness :
    parse_device_header_csv [] = .error .tooFewLines ∧
    MalformedExportError .tooFewLines ∧
    ParseErr.message .tooFewLines =
      "CSV does not look like a GA4 Explore export with device header." :=
  claim_C3 [] (by decide)

theorem pyIndex?_eq_none (p : String → Bool) (l : List String)
    (h : ∀ x ∈ l, p x = false) : pyIndex? p l = none := by
  induction l with
  | nil => rfl
  | cons a l ih =>
    simp only [pyIndex?]
    rw [h a (List.mem_cons_self a l)]
    simp [ih fun x hx => h x (List.mem_cons_of_mem a hx)]

theorem pyIndex?_some (p : String → Bool) (l : List String)
    (h : ∃ x ∈ l, p x = true) :
    ∃ j, pyIndex? p l = some j ∧ p (l.getD j "") = true := by
  induction l with
  | nil => simp at h
  | cons a l ih =>
    by_cases ha : p a = true
    · exact ⟨0, by simp [pyIndex?, ha], by simpa using ha⟩
    · have hb : p a = false := by simpa using ha
      obtain ⟨x, hx, hpx⟩ := h
      rcases List.mem_cons.mp hx with rfl | hx2
      · exact absurd hpx ha
      · obtain ⟨j, hj, hpj⟩ := ih ⟨x, hx2, hpx⟩
        refine ⟨j + 1, ?_, ?_⟩
        · simp [pyIndex?, hb, hj]
        · simpa using hpj

/-- C4: with at least 3 retained lines, the pivot lookup on the CSV-parsed
first line prefers a cell exactly equal to `Device category`; failing that
it takes a cell whose stripped, lowercased text is `device category`; and if
no cell matches either way the reconciliation fails with a
`MalformedExportError` instead of producing output. -/
theorem claim_C4 (lines : List String)
    (h3 : ¬ (retainedRows lines).length < 3) :
    ((∃ c ∈ parseCSVLine ((retainedRows lines).getD 0 ""), c = "Device category") →
      ∃ j, locatePivotColumn (parseCSVLine ((retainedRows lines).getD 0 "")) = some j ∧
        (parseCSVLine ((retainedRows lines).getD 0 "")).getD j "" = "Device category") ∧
    ((∀ c ∈ parseCSVLine ((retainedRows lines).getD 0 ""), c ≠ "Device category") →
      (∃ c ∈ parseCSVLine ((retainedRows lines).getD 0 ""),
        pyLower (pyStrip c) = "device category") →
      ∃ j, locatePivotColumn (parseCSVLine ((retainedRows lines).getD 0 "")) = some j ∧
        pyLower (pyStrip ((parseCSVLine ((retainedRows lines).getD 0 "")).getD j "")) =
          "device category") ∧
    ((∀ c ∈ parseCSVLine ((retainedRows lines).getD 0 ""),
        c ≠ "Device category" ∧ pyLower (pyStrip c) ≠ "device category") →
      ∃ e, parse_device_header_csv lines = .error e ∧ MalformedExportError e) := by
  refine ⟨?_, ?_, ?_⟩
  · rintro ⟨c, hc, rfl⟩
    obtain ⟨j, hj, hpj⟩ := pyIndex?_some (fun v => v == "Device category") _
      ⟨_, hc, by simp⟩
    refine ⟨j, ?_, by simpa using hpj⟩
    unfold locatePivotColumn
    rw [hj]
  · intro hexact
    rintro ⟨c, hc, hcl⟩
    have hnone : pyIndex? (fun v => v == "Device category")
        (parseCSVLine ((retainedRows lines).getD 0 "")) = none :=
      pyIndex?_eq_none _ _ fun x hx => by simpa using hexact x hx
    obtain ⟨j, hj, hpj⟩ := pyIndex?_some
      (fun v => pyLower (pyStrip v) == "device category") _ ⟨c, hc, by simp [hcl]⟩
    refine ⟨j, ?_, by simpa using hpj⟩
    unfold locatePivotColumn
    rw [hnone]
    exact hj
  · intro hnomatch
    have hnone1 : pyIndex? (fun v => v == "Device category")
        (parseCSVLine ((retainedRows lines).getD 0 "")) = none :=
      pyIndex?_eq_none _ _ fun x hx => by simp [(hnomatch x hx).1]
    have hnone2 : pyIndex? (fun v => pyLower (pyStrip v) == "device category")
        (parseCSVLine ((retainedRows lines).getD 0 "")) = none :=
      pyIndex?_eq_none _ _ fun x hx => by simp [(hnomatch x hx).2]
    have hloc : locatePivotColumn (parseCSVLine ((retainedRows lines).getD 0 "")) =
        none := by
      unfold locatePivotColumn
      rw [hnone1]
      exact hnone2
    by_cases hempty : (retainedRows lines).getD 1 "" = ""
    · refine ⟨.emptyHeaderLine, ?_, Or.inr (Or.inr rfl)⟩
      unfold parse_device_header_csv
      simp only []
      rw [if_neg h3, if_pos (by simpa using hempty)]
    · refine ⟨.noPivotColumn, ?_, Or.inr (Or.inl rfl)⟩
      unfold parse_device_header_csv
      simp only []
      rw [if_neg h3, if_neg (by simpa using hempty), hloc]

/-- C4, witness: a three-line input with no device-category cell fails with
a `MalformedExportError`; the concrete conclusions of the lookup claim hold
on it. -/
theorem claim_C4_witness :
    ((∃ c ∈ parseCSVLine ((retainedRows ["a,b", "c,d", "e,f"]).getD 0 ""),
        c = "Device category") →
      ∃ j, locatePivotColumn (parseCSVLine ((retainedRows ["a,b", "c,d", "e,f"]).getD 0 "")) =
          some j ∧
        (parseCSVLine ((retainedRows ["a,b", "c,d", "e,f"]).getD 0 "")).getD j "" =
          "Device category") ∧
    ((∀ c ∈ parseCSVLine ((retainedRows ["a,b", "c,d", "e,f"]).getD 0 ""),
        c ≠ "Device category") →
      (∃ c ∈ parseCSVLine ((retainedRows ["a,b", "c,d", "e,f"]).getD 0 ""),
        pyLower (pyStrip c) = "device category") →
      ∃ j, locatePivotColumn (parseCSVLine ((retainedRows ["a,b", "c,d", "e,f"]).getD 0 "")) =
          some j ∧
        pyLower (pyStrip ((parseCSVLine ((retainedRows ["a,b", "c,d", "e,f"]).getD 0 "")).getD
          j "")) = "device category") ∧
    ((∀ c ∈ parseCSVLine ((retainedRows ["a,b", "c,d", "e,f"]).getD 0 ""),
        c ≠ "Device category" ∧ pyLower (pyStrip c) ≠ "device category") →
      ∃ e, parse_device_header_csv ["a,b", "c,d", "e,f"] = .error e ∧
        MalformedExportError e) :=
  claim_C4 ["a,b", "c,d", "e,f"] (by decide)

/-- C5: on every successful reconciliation the output body is exactly the
retained lines from index 2 on with every line starting with a comma
removed: a comma-initial data line is excluded wherever it sits, every other
data line is kept, and the kept lines appear in their original order (the
body is a sublist of the data lines). -/
theorem claim_C5 (lines : List String) (r : Reconciled)
    (h : parse_device_header_csv lines = .ok r) :
    r.body = dataLines (retainedRows lines) ∧
    r.body.Sublist ((retainedRows lines).drop 2) ∧
    ∀ l ∈ (retainedRows lines).drop 2,
      (startsWithChar ',' l = true → l ∉ r.body) ∧
      (startsWithChar ',' l = false → l ∈ r.body) := by
  obtain ⟨idx, -, -, -, -, hr⟩ := parse_ok_elim lines r h
  subst hr
  refine ⟨rfl, List.filter_sublist _, ?_⟩
  intro l hl
  constructor
  · intro hcomma hmem
    have := (List.mem_filter.mp hmem).2
    simp only [Bool.not_eq_true', hcomma] at this
    cases this
  · intro hfalse
    exact List.mem_filter.mpr ⟨hl, by simp [hfalse]⟩

/-- C5, witness: a mid-file totals line is dropped, the surrounding data
lines survive in order. -/
theorem claim_C5_witness :
    Reconciled.body ⟨["h1", "Active users (x)"], ["d1,1", "d2,2"]⟩ =
      dataLines (retainedRows
        ["h0,Device category,x", "h1,Active users", "d1,1", ",16", "d2,2"]) ∧
    (Reconciled.body ⟨["h1", "Active users (x)"], ["d1,1", "d2,2"]⟩).Sublist
      ((retainedRows
        ["h0,Device category,x", "h1,Active users", "d1,1", ",16", "d2,2"]).drop 2) ∧
    ∀ l ∈ (retainedRows
        ["h0,Device category,x", "h1,Active users", "d1,1", ",16", "d2,2"]).drop 2,
      (startsWithChar ',' l = true →
        l ∉ Reconciled.body ⟨["h1", "Active users (x)"], ["d1,1", "d2,2"]⟩) ∧
      (startsWithChar ',' l = false →
        l ∈ Reconciled.body ⟨["h1", "Active users (x)"], ["d1,1", "d2,2"]⟩) :=
  claim_C5 ["h0,Device category,x", "h1,Active users", "d1,1", ",16", "d2,2"]
    ⟨["h1", "Active users (x)"], ["d1,1", "d2,2"]⟩ rfl

/-- C6, counterexample: reconciliation succeeds on an export whose second
line has a quoted header cell containing a comma, and re-reading the
reconstructed text then yields three columns for the two merged header
cells — the plain `",".join` loses the quoting. -/
theorem claim_C6_counterexample :
    parse_device_header_csv
      [",Device category,mobile", "\"a,b\",Active users", "1,2"] =
      .ok ⟨["a,b", "Active users (mobile)"], ["1,2"]⟩ ∧
    parseCSVLine (pyJoin "," ["a,b", "Active users (mobile)"]) =
      ["a", "b", "Active users (mobile)"] ∧
    (((["a", "b", "Active users (mobile)"] : List String).length ==
      (["a,b", "Active users (mobile)"] : List String).length) = false) := by
  exact ⟨rfl, rfl, rfl⟩

/-- C6, amended: on every successful reconciliation whose merged header
cells contain no comma and no quote character, re-reading the reconstructed
CSV text's header line with the CSV reader yields back exactly the merged
header cells — in particular exactly one column per header cell. -/
theorem claim_C6 (lines : List String) (r : Reconciled)
    (h : parse_device_header_csv lines = .ok r)
    (hclean : ∀ c ∈ r.header, ∀ ch ∈ c.data, ch ≠ ',' ∧ ch ≠ '\"') :
    parseCSVLine (pyJoin "," r.header) = r.header ∧
    (parseCSVLine (pyJoin "," r.header)).length = r.header.length := by
  have hne : r.header ≠ [] := by
    obtain ⟨idx, -, -, -, hle, hr⟩ := parse_ok_elim lines r h
    subst hr
    have hlen := mergeHeader_length (headerRowOf (retainedRows lines))
      (pivotLabels (retainedRows lines) idx) hle
    have hpos : 0 < (headerRowOf (retainedRows lines)).length :=
      parseCSVLine_length_pos ((retainedRows lines).getD 1 "")
    intro hnil
    rw [show Reconciled.header ⟨mergeHeader (headerRowOf (retainedRows lines))
      (pivotLabels (retainedRows lines) idx), dataLines (retainedRows lines)⟩ =
      mergeHeader (headerRowOf (retainedRows lines))
      (pivotLabels (retainedRows lines) idx) from rfl] at hnil
    rw [hnil] at hlen
    simp at hlen
    omega
  have h1 : parseCSVLine (pyJoin "," r.header) = r.header := by
    have := csv_split_join r.header hne hclean []
    simpa [parseCSVLine] using this
  exact ⟨h1, by rw [h1]⟩

/-- C6, witness: the amended claim at the concrete GA4 scenario, whose five
merged header cells are comma-free and quote-free. -/
theorem claim_C6_witness :
    parseCSVLine (pyJoin ","
      (Reconciled.header ⟨["Date", "Landing page", "Active users (mobile)",
        "Active users (desktop)", "Active users (Totals)"],
        ["20250701,/home,5,3,8"]⟩)) =
      Reconciled.header ⟨["Date", "Landing page", "Active users (mobile)",
        "Active users (desktop)", "Active users (Totals)"],
        ["20250701,/home,5,3,8"]⟩ ∧
    (parseCSVLine (pyJoin ","
      (Reconciled.header ⟨["Date", "Landing page", "Active users (mobile)",
        "Active users (desktop)", "Active users (Totals)"],
        ["20250701,/home,5,3,8"]⟩))).length =
      (Reconciled.header ⟨["Date", "Landing page", "Active users (mobile)",
        "Active users (desktop)", "Active users (Totals)"],
        ["20250701,/home,5,3,8"]⟩).length :=
  claim_C6
    ["#comment", ",,,,Device category,mobile,desktop,Totals",
     "Date,Landing page,Active users,Active users,Active users",
     "20250701,/home,5,3,8", ",,,16,16"]
    ⟨["Date", "Landing page", "Active users (mobile)",
      "Active users (desktop)", "Active users (Totals)"],
     ["20250701,/home,5,3,8"]⟩ rfl (by decide)

/-- C7: the robust date parser maps `"20250721"` to July 21 2025; maps the
empty and whitespace-only strings to a missing date; and maps any garbled
date string — one the final `pd.to_datetime(…, errors="coerce")` branch
cannot parse — to a missing date instead of raising. -/
theorem claim_C7 (coerce : String → Option YMD) :
    parseDateRobust coerce "20250721" = some ⟨2025, 7, 21⟩ ∧
    (∀ v, pyStrip v = "" → parseDateRobust coerce v = none) ∧
    (∀ v, isYmd8 (pyStrip v) = false → coerce (pyStrip v) = none →
      parseDateRobust coerce v = none) := by
  refine ⟨rfl, ?_, ?_⟩
  · intro v hv
    unfold parseDateRobust
    simp only []
    rw [hv]
    rfl
  · intro v hv hc
    unfold parseDateRobust
    simp only []
    by_cases he : pyStrip v = ""
    · rw [he]
      rfl
    · rw [if_neg (by simpa using he), hv]
      simp only [Bool.false_eq_true, if_false]
      exact hc

/-- C7, witness: the three behaviours at concrete strings, with the coerce
branch that cannot parse its input. -/
theorem claim_C7_witness :
    parseDateRobust (fun _ => none) "20250721" = some ⟨2025, 7, 21⟩ ∧
    parseDateRobust (fun _ => none) "   " = none ∧
    parseDateRobust (fun _ => none) "20-xy-07" = none :=
  ⟨(claim_C7 (fun _ => none)).1,
   (claim_C7 (fun _ => none)).2.1 "   " (by decide),
   (claim_C7 (fun _ => none)).2.2 "20-xy-07" (by decide) rfl⟩

/-- C8: when the input file does not exist, `load_and_clean` terminates the
run with the `MissingInputError` whose message names the expected path and
the remediation, the process exit status is non-zero, and neither the clean
CSV nor the report is written. -/
theorem claim_C8 (summarise : List DedupRow → String)
    (coerce : String → Option YMD) (path : String) (lines : List String) :
    load_and_clean coerce false path lines =
      .error (.missingInput (missingMsg path)) ∧
    missingMsg path = "Could not find CSV at: " ++ path ++ "\n" ++
      "Export from GA4 (Explore) and save it there as ga4_export.csv." ∧
    runOutputs summarise coerce false path lines = [] ∧
    0 < exitCode (.missingInput (missingMsg path)) :=
  ⟨rfl, rfl, rfl, Nat.one_pos⟩

/-- C9: the two copies of `parse_device_header_csv` (`analyse.py` lines
38–78 and `analyse2.py` lines 58–82) agree on every input: same failures on
the same inputs, and on success the same reconciled header and body, hence
the same reconstructed CSV text. -/
theorem claim_C9 (lines : List String) :
    parse_device_header_csv lines = parse_device_header_csv2 lines ∧
    (parse_device_header_csv lines).map Reconciled.csvText =
      (parse_device_header_csv2 lines).map Reconciled.csvText :=
  ⟨rfl, rfl⟩

/-! ### Lemmas about the deduplication -/

theorem Metrics.bot_mmax (x : Metrics) : Metrics.bot.mmax x = x := rfl

theorem DedupRow.key_update (o : DedupRow) (m : Metrics) :
    ({ o with metrics := m } : DedupRow).key = o.key := rfl

theorem upsertRow_mem_key (r : CleanRow) (acc : List DedupRow) (b : DedupRow)
    (hb : b ∈ upsertRow r acc) :
    b.key ∈ acc.map DedupRow.key ∨ b.key = r.key := by
  induction acc with
  | nil =>
    simp only [upsertRow, List.mem_singleton] at hb
    subst hb
    exact Or.inr rfl
  | cons o os ih =>
    simp only [upsertRow] at hb
    by_cases hk : o.key = r.key
    · rw [if_pos hk] at hb
      rcases List.mem_cons.mp hb with rfl | hmem
      · exact Or.inl (by simp [DedupRow.key_update])
      · exact Or.inl (by simp; exact Or.inr ⟨b, hmem, rfl⟩)
    · rw [if_neg hk] at hb
      rcases List.mem_cons.mp hb with rfl | hmem
      · exact Or.inl (by simp)
      · rcases ih hmem with hin | hbk
        · refine Or.inl ?_
          simp only [List.map_cons, List.mem_cons]
          exact Or.inr (by simpa using hin)
        · exact Or.inr hbk

theorem upsertRow_pairwise (r : CleanRow) (acc : List DedupRow)
    (h : acc.Pairwise (fun a b => a.key ≠ b.key)) :
    (upsertRow r acc).Pairwise (fun a b => a.key ≠ b.key) := by
  induction acc with
  | nil =>
    simp [upsertRow]
  | cons o os ih =>
    rcases List.pairwise_cons.mp h with ⟨ho, hos⟩
    simp only [upsertRow]
    by_cases hk : o.key = r.key
    · rw [if_pos hk]
      refine List.pairwise_cons.mpr ⟨?_, hos⟩
      intro b hb
      rw [DedupRow.key_update]
      exact ho b hb
    · rw [if_neg hk]
      refine List.pairwise_cons.mpr ⟨?_, ih hos⟩
      intro b hb
      rcases upsertRow_mem_key r os b hb with hin | hbk
      · obtain ⟨b0, hb0, hbeq⟩ := List.mem_map.mp hin
        intro heq
        exact (ho b0 hb0) (heq.trans hbeq.symm)
      · intro heq
        exact hk (heq.trans hbk)

theorem findRow_upsert (r : CleanRow) (acc : List DedupRow)
    (k : Option YMD × String × String × String) :
    findRow k (upsertRow r acc) =
      if r.key = k then
        some (match findRow k acc with
          | none => DedupRow.ofClean r
          | some o => { o with metrics := o.metrics.mmax r.metrics })
      else findRow k acc := by
  induction acc with
  | nil =>
    simp only [upsertRow, findRow]
    have hofk : (DedupRow.ofClean r).key = r.key := rfl
    by_cases hk : r.key = k
    · rw [if_pos (hofk.trans hk), if_pos hk]
    · rw [if_neg (fun hc => hk (hofk.symm.trans hc)), if_neg hk]
  | cons o os ih =>
    simp only [upsertRow]
    by_cases hok : o.key = r.key
    · rw [if_pos hok]
      simp only [findRow, DedupRow.key_update]
      by_cases hk : o.key = k
      · rw [if_pos hk, if_pos (hok.symm.trans hk), if_pos hk]
      · rw [if_neg hk, if_neg (fun hc => hk (hok.trans hc)), if_neg hk]
    · rw [if_neg hok]
      simp only [findRow]
      by_cases hk : o.key = k
      · rw [if_pos hk]
        rw [if_neg (fun hc : r.key = k => hok (hk.trans hc.symm))]
        rw [if_pos hk]
      · rw [if_neg hk, ih, if_neg hk]

theorem findRow_fold (rows : List CleanRow) :
    ∀ (acc : List DedupRow) (k : Option YMD × String × String × String),
    findRow k (rows.foldl (fun a r => upsertRow r a) acc) =
      match findRow k acc with
      | some o => some (mergeInto o (groupOf rows k))
      | none =>
        match groupOf rows k with
        | [] => none
        | r0 :: rest => some (mergeInto (DedupRow.ofClean r0) rest) := by
  induction rows with
  | nil =>
    intro acc k
    simp only [List.foldl_nil, groupOf, List.filter_nil]
    cases hf : findRow k acc with
    | none => rfl
    | some o => rfl
  | cons r rs ih =>
    intro acc k
    simp only [List.foldl_cons]
    rw [ih (upsertRow r acc) k]
    rw [findRow_upsert r acc k]
    by_cases hrk : r.key = k
    · rw [if_pos hrk]
      have hg : groupOf (r :: rs) k = r :: groupOf rs k := by
        simp only [groupOf, List.filter_cons]
        rw [if_pos (by simpa using hrk)]
      rw [hg]
      cases hf : findRow k acc with
      | none => rfl
      | some o => rfl
    · rw [if_neg hrk]
      have hg : groupOf (r :: rs) k = groupOf rs k := by
        simp only [groupOf, List.filter_cons]
        rw [if_neg (by simpa using hrk)]
      rw [hg]

theorem foldl_upsert_pairwise (rows : List CleanRow) :
    ∀ acc, acc.Pairwise (fun a b : DedupRow => a.key ≠ b.key) →
    (rows.foldl (fun a r => upsertRow r a) acc).Pairwise
      (fun a b => a.key ≠ b.key) := by
  induction rows with
  | nil =>
    intro acc h
    exact h
  | cons r rs ih =>
    intro acc h
    exact ih _ (upsertRow_pairwise r acc h)

theorem dedup_pairwise (rows : List CleanRow) :
    (dedupByKeyMax rows).Pairwise (fun a b => a.key ≠ b.key) :=
  foldl_upsert_pairwise rows [] (by simp)

theorem findRow_mem_of_pairwise (l : List DedupRow) (o : DedupRow)
    (hp : l.Pairwise (fun a b => a.key ≠ b.key)) (ho : o ∈ l) :
    findRow o.key l = some o := by
  induction l with
  | nil => cases ho
  | cons a l ih =>
    rcases List.pairwise_cons.mp hp with ⟨ha, hl⟩
    rcases List.mem_cons.mp ho with rfl | hmem
    · simp [findRow]
    · have hne : ¬ a.key = o.key := ha o hmem
      rw [findRow, if_neg hne]
      exact ih hl hmem

theorem dedup_metrics (rows : List CleanRow) (o : DedupRow)
    (ho : o ∈ dedupByKeyMax rows) : o.metrics = groupMax rows o.key := by
  have hf := findRow_mem_of_pairwise _ o (dedup_pairwise rows) ho
  have hfold := findRow_fold rows [] o.key
  rw [show dedupByKeyMax rows = rows.foldl (fun a r => upsertRow r a) [] from rfl]
    at hf
  rw [hf] at hfold
  rw [show findRow o.key ([] : List DedupRow) = none from rfl] at hfold
  cases hg : groupOf rows o.key with
  | nil =>
    rw [hg] at hfold
    cases hfold
  | cons r0 rest =>
    rw [hg] at hfold
    have ho2 : o = mergeInto (DedupRow.ofClean r0) rest := by
      simpa using hfold
    have hgm : groupMax rows o.key =
        rest.foldl (fun m r => m.mmax r.metrics) r0.metrics := by
      rw [show groupMax rows o.key =
        (groupOf rows o.key).foldl (fun m r => m.mmax r.metrics) Metrics.bot from rfl]
      rw [hg]
      simp only [List.foldl_cons, Metrics.bot_mmax]
    rw [hgm, ho2]
    rfl

theorem load_and_clean_ok_shape (coerce : String → Option YMD)
    (pathExists : Bool) (path : String) (lines : List String)
    (t : List DedupRow)
    (h : load_and_clean coerce pathExists path lines = .ok t) :
    ∃ rows, t = dedupByKeyMax rows := by
  unfold load_and_clean at h
  split at h
  · exact absurd h (by simp)
  · split at h
    · exact absurd h (by simp)
    · rename_i raw hraw
      split at h
      · exact absurd h (by simp)
      · rename_i rows hrows
        exact ⟨rows, ((Except.ok.injEq _ _).mp h).symm⟩

theorem load_and_clean2_ok_shape (coerce : String → Option YMD)
    (pathExists : Bool) (path : String) (lines : List String)
    (t : List DedupRow)
    (h : load_and_clean2 coerce pathExists path lines = .ok t) :
    ∃ rows, t = dedupByKeyMax rows := by
  unfold load_and_clean2 at h
  split at h
  · exact absurd h (by simp)
  · split at h
    · exact absurd h (by simp)
    · rename_i raw hraw
      split at h
      · exact absurd h (by simp)
      · rename_i rows hrows
        exact ⟨rows, ((Except.ok.injEq _ _).mp h).symm⟩

/-- C10: every table either `load_and_clean` returns is a groupby-max
deduplication of its intermediate rows; such a table has at most one row per
distinct `(date, landing_page, channel_group, country)` key, and each row's
metric values are the `NaN`-skipping maxima of the corresponding values over
the input rows sharing its key. -/
theorem claim_C10 :
    (∀ rows : List CleanRow,
      (dedupByKeyMax rows).Pairwise (fun a b => a.key ≠ b.key)) ∧
    (∀ (rows : List CleanRow) (o : DedupRow),
      o ∈ dedupByKeyMax rows → o.metrics = groupMax rows o.key) ∧
    (∀ (coerce : String → Option YMD) (pathExists : Bool) (path : String)
      (lines : List String) (t : List DedupRow),
      load_and_clean coerce pathExists path lines = .ok t →
      ∃ rows, t = dedupByKeyMax rows) ∧
    (∀ (coerce : String → Option YMD) (pathExists : Bool) (path : String)
      (lines : List String) (t : List DedupRow),
      load_and_clean2 coerce pathExists path lines = .ok t →
      ∃ rows, t = dedupByKeyMax rows) :=
  ⟨dedup_pairwise, dedup_metrics, load_and_clean_ok_shape, load_and_clean2_ok_shape⟩
